import Mathlib

/-!
Verification of the clickhouse-bun-integration service.

This file shallowly embeds the two request handlers that carry the system's
logic:

* the `/transfers` handler of `src/index.ts` — parameter validation, the
  consistency-polling retry loop with its block-alignment trim, the optional
  `n` truncation, and the JSON response bodies it builds;
* the webhook/WebSocket handler of the goldsky gateway file —
  `validateWebhookSecret`, the `/webhook/goldsky` branch, and
  `broadcastToClients` over the registry of connected clients.

JavaScript numbers appearing in the embedded code are only ever produced by
coercing decimal integer strings (block numbers, `toBlock`, `n`, timestamps),
so they are modelled as `Option Int`, with `none` playing the role of `NaN`;
no floating-point arithmetic occurs in the embedded control flow.  The
ClickHouse client is modelled as an oracle mapping the 0-based attempt index
to either a thrown value or a query result, so one store query is issued per
evaluation of the oracle; the handlers additionally report how many store
queries they issued.
-/

/-- Truthiness of a JS `string | null | undefined` value: `null`/`undefined`
and the empty string are falsy, every other string is truthy. -/
def jsTruthy : Option String → Bool
  | none => false
  | some s => s ≠ ""

/-- Value of a run of decimal digits, `none` as soon as a non-digit
appears; the empty run yields the accumulator. -/
def natOfDigits (acc : Nat) : List Char → Option Nat
  | [] => some acc
  | c :: cs =>
    if c.isDigit then natOfDigits (acc * 10 + (c.toNat - '0'.toNat)) cs else none

/-- JS numeric coercion `Number(s)` restricted to the shapes the embedded
code feeds it: the empty string coerces to `0`, a decimal integer numeral
(optionally signed) to its value, anything else to `NaN` (`none`). -/
def jsStrToNum (s : String) : Option Int :=
  match s.data with
  | [] => some 0
  | '-' :: c :: cs => (natOfDigits 0 (c :: cs)).map (fun v => -(v : Int))
  | cs => (natOfDigits 0 cs).map (fun v => (v : Int))

/-- JS `parseInt(s)`: the longest leading (optionally signed) decimal digit
sequence, `NaN` (`none`) when there is no leading digit. -/
def jsParseInt (s : String) : Option Int :=
  match s.data with
  | '-' :: rest =>
    let d := rest.takeWhile Char.isDigit
    if d.isEmpty then none else (natOfDigits 0 d).map (fun v => -(v : Int))
  | cs =>
    let d := cs.takeWhile Char.isDigit
    if d.isEmpty then none else (natOfDigits 0 d).map (fun v => (v : Int))

/-- JS `a >= b` on numbers that may be `NaN`: any comparison involving `NaN`
is false. -/
def jsGe : Option Int → Option Int → Bool
  | some a, some b => a ≥ b
  | _, _ => false

/-- JS `xs.slice(0, e)`: a `NaN` end coerces to `0`, a negative end counts
from the end of the array, a too-large end is clamped to the length. -/
def jsSliceTo {α : Type} (xs : List α) : Option Int → List α
  | none => []
  | some k => if 0 ≤ k then xs.take k.toNat else xs.take (xs.length - (-k).toNat)

/-- Minimal JSON value model, enough to state what the handlers serialize
with `JSON.stringify`; numbers in the emitted bodies are integers
(`NaN` serializes as `null`, which `numOrNull` handles). -/
inductive JValue : Type
  | null : JValue
  | jstr : String → JValue
  | jnum : Int → JValue
  | jarr : List JValue → JValue
  | jobj : List (String × JValue) → JValue

/-- Field lookup in a JSON object; `none` on non-objects or absent keys. -/
def jGet : JValue → String → Option JValue
  | .jobj fields, k => (fields.find? (fun f => f.1 == k)).map (fun f => f.2)
  | _, _ => none

/-- The keys of a JSON object, in serialization order. -/
def jKeys : JValue → List String
  | .jobj fields => fields.map (fun f => f.1)
  | _ => []

/-- A JS `string | null` serialized into JSON. -/
def strOrNull : Option String → JValue
  | none => .null
  | some s => .jstr s

/-- A JS number-or-NaN serialized into JSON (`NaN` serializes as `null`). -/
def numOrNull : Option Int → JValue
  | none => .null
  | some i => .jnum i

/-- One aggregate row of the store result (`TransferData` in `src/index.ts`).
`time_bucket`, `total_transfers` and `last_block_number` arrive as strings;
the amount fields are numbers never computed on by the handler. -/
structure TransferData : Type where
  time_bucket : String
  total_transfers : String
  total_amount : Int
  avg_amount : Int
  min_amount : Int
  max_amount : Int
  open_amount : Int
  close_amount : Int
  last_block_number : String
  median_amount : Int
deriving DecidableEq

/-- One store query result: the row array plus the reported row count, kept
separate because the handler reads `result.rows` for the freshness check but
`result.data.length` everywhere else. -/
structure QueryData : Type where
  data : List TransferData
  rows : Nat
deriving DecidableEq

/-- A value thrown by `client.query`: either an `Error` carrying a message or
some non-`Error` value (the handler's `instanceof Error` test). -/
inductive StoreThrow : Type
  | error : String → StoreThrow
  | nonError : StoreThrow
deriving DecidableEq

/-- The message the catch branch reports:
`error instanceof Error ? error.message : "Unknown error"`. -/
def throwMessage : StoreThrow → String
  | .error m => m
  | .nonError => "Unknown error"

/-- The store oracle: 0-based attempt index to outcome of that attempt's
`client.query`. -/
def Store : Type := Nat → Except StoreThrow QueryData

/-- The query parameters extracted from the `/transfers` URL; `none` is an
absent parameter (`url.searchParams.get` returned `null`). -/
structure Params : Type where
  n : Option String
  timeInterval : Option String
  token : Option String
  toBlock : Option String
  fromTimestamp : Option String
  toTimestamp : Option String
deriving DecidableEq

/-- Table resolution for the WBTC service: `table` starts `null` and the two
interval checks of `src/index.ts` each overwrite it on a match. -/
def resolveTable (timeInterval : String) : Option String :=
  let table : Option String := none
  let table := if timeInterval = "1h" then some "wbtc_1h_transfers" else table
  let table := if timeInterval = "1m" then some "wbtc_1m_transfers" else table
  table

/-- Length of the leading run of rows whose coerced `last_block_number` is
`>= toBlock`; the scan stops at the first failing row, mirroring the
`for`/`break` loop computing `highestMatchingIndex`
(`highestMatchingIndex = matchingPrefixLen - 1`, or `-1` when this is `0`). -/
def matchingPrefixLen (tbn : Option Int) : List TransferData → Nat
  | [] => 0
  | r :: rs =>
    if jsGe (jsStrToNum r.last_block_number) tbn then matchingPrefixLen tbn rs + 1
    else 0

/-- The per-attempt block-alignment check and trim of `src/index.ts`
(lines 289–312): returns the possibly trimmed result together with the
`blockMatches` flag.  The trim replaces `result.data` with
`result.data.slice(highestMatchingIndex)` and leaves `result.rows` alone. -/
def attemptTrim (toBlock : Option String) (result : QueryData) : QueryData × Bool :=
  let hasData := result.rows > 0
  if jsTruthy toBlock && hasData && result.data.length > 0 then
    let tbn := jsStrToNum (toBlock.getD "")
    let m := matchingPrefixLen tbn result.data
    if m > 0 then (⟨result.data.drop (m - 1), result.rows⟩, true)
    else (result, false)
  else (result, true)

/-- The body of the `while (attempt < maxRetries)` retry loop, with `fuel`
the number of loop iterations still permitted (the loop runs at most
`maxRetries` iterations, so `retryLoop` supplies `fuel = maxRetries`).
`attempt` counts queries already issued; a successful exit carries the final
`data` value and the attempt count, a thrown store value carries the count of
queries issued including the failing one. -/
def retryGo (toBlock : Option String) (store : Store) (maxRetries : Nat) :
    Nat → Nat → QueryData → Except (StoreThrow × Nat) (QueryData × Nat)
  | 0, attempt, dat => .ok (dat, attempt)
  | fuel + 1, attempt, dat =>
    if attempt < maxRetries then
      match store attempt with
      | .error e => .error (e, attempt + 1)
      | .ok result =>
        let hasData := result.rows > 0
        let trimmed := attemptTrim toBlock result
        if hasData && trimmed.2 then
          .ok (⟨trimmed.1.data, trimmed.1.data.length⟩, attempt + 1)
        else if attempt + 1 ≥ maxRetries then
          .ok (⟨[], 0⟩, attempt + 1)
        else
          retryGo toBlock store maxRetries fuel (attempt + 1) dat
    else .ok (dat, attempt)

/-- The consistency-polling retry loop of the `/transfers` handler:
`maxRetries = 10`, `attempt = 0`, `data = { data: [], rows: 0 }`. -/
def retryLoop (toBlock : Option String) (store : Store) :
    Except (StoreThrow × Nat) (QueryData × Nat) :=
  retryGo toBlock store 10 10 0 ⟨[], 0⟩

/-- Number of store queries issued by a finished retry loop. -/
def queriesOf : Except (StoreThrow × Nat) (QueryData × Nat) → Nat
  | .error (_, q) => q
  | .ok (_, q) => q

/-- The post-processing outside the retry loop: when `n` is truthy the final
data is `data.data.slice(0, +n)` and `data.rows` becomes its length. -/
def postProcess (n : Option String) (d : QueryData) : QueryData :=
  if jsTruthy n then
    let sliced := jsSliceTo d.data (jsStrToNum (n.getD ""))
    ⟨sliced, sliced.length⟩
  else d

/-- The 400 body for missing required parameters. -/
def missingParamsBody (p : Params) : JValue :=
  .jobj
    [("error", .jstr "Missing required parameters"),
     ("required", .jarr [.jstr "timeInterval", .jstr "token"]),
     ("optional",
      .jarr [.jstr "toBlock", .jstr "fromTimestamp", .jstr "toTimestamp", .jstr "n"]),
     ("provided",
      .jobj
        [("timeInterval", strOrNull p.timeInterval),
         ("token", strOrNull p.token),
         ("toBlock", strOrNull p.toBlock),
         ("fromTimestamp", strOrNull p.fromTimestamp),
         ("toTimestamp", strOrNull p.toTimestamp),
         ("n", strOrNull p.n)])]

/-- The 400 body for an unrecognized token. -/
def invalidTokenBody : JValue :=
  .jobj [("error", .jstr "Invalid token"), ("valid", .jarr [.jstr "WBTC"])]

/-- The 400 body for an unrecognized time interval. -/
def invalidIntervalBody : JValue :=
  .jobj [("error", .jstr "Invalid time interval"), ("valid", .jarr [.jstr "1h", .jstr "1m"])]

/-- The 500 body of the catch branch. -/
def queryFailedBody (e : StoreThrow) : JValue :=
  .jobj [("error", .jstr "Query failed"), ("message", .jstr (throwMessage e))]

/-- The 200 body serialized by the success return of the `/transfers`
handler.  It echoes the parameters and reports `count: data.rows`; the line
serializing the row array itself (`data: data.data`) is commented out in the
source, and `data2`/`count2` echo the `data2` variable, which is initialized
to an empty result and never reassigned because the second client's query is
commented out. -/
def successBody (p : Params) (count : Nat) : JValue :=
  .jobj
    [("parameters",
      .jobj
        [("timeInterval", strOrNull p.timeInterval),
         ("tokenPair", strOrNull p.token),
         ("toBlock",
          if jsTruthy p.toBlock then numOrNull (jsParseInt (p.toBlock.getD "")) else .null),
         ("fromTimestamp",
          if jsTruthy p.fromTimestamp then numOrNull (jsParseInt (p.fromTimestamp.getD ""))
          else .null),
         ("toTimestamp",
          if jsTruthy p.toTimestamp then numOrNull (jsParseInt (p.toTimestamp.getD ""))
          else .null),
         ("n", if jsTruthy p.n then numOrNull (jsParseInt (p.n.getD "")) else .null)]),
     ("count", .jnum count),
     ("count2", .jnum 0),
     ("data2", .jarr [])]

/-- The observable outcome of one `/transfers` request: HTTP status, JSON
body, and how many store queries were issued while serving it. -/
structure HandlerOutcome : Type where
  status : Nat
  body : JValue
  queriesMade : Nat

/-- The `/transfers` handler of `src/index.ts`: required-parameter check,
token allow-list, interval resolution, the retry loop, the `n` truncation,
and the response construction, including the catch branch for thrown store
values. -/
def transfersHandler (p : Params) (store : Store) : HandlerOutcome :=
  if ¬(jsTruthy p.timeInterval && jsTruthy p.token) then
    ⟨400, missingParamsBody p, 0⟩
  else if p.token ≠ some "WBTC" then
    ⟨400, invalidTokenBody, 0⟩
  else
    match resolveTable (p.timeInterval.getD "") with
    | none => ⟨400, invalidIntervalBody, 0⟩
    | some _ =>
      match retryLoop p.toBlock store with
      | .error (e, q) => ⟨500, queryFailedBody e, q⟩
      | .ok (d, q) =>
        let fin := postProcess p.n d
        ⟨200, successBody p fin.rows, q⟩

/-- A connected WebSocket client: an identity, its `readyState`, and whether
its `send` throws during this broadcast. -/
structure WsClient : Type where
  id : Nat
  readyState : Nat
  sendFails : Bool
deriving DecidableEq

/-- `broadcastToClients` of the goldsky gateway: iterate over the connected
set (deleting the current element during JS `Set` iteration is safe and the
iteration continues over the remaining elements); a client in state
`OPEN` (`readyState === 1`) gets the message sent, a throwing send deletes
the client, a non-open client is deleted without a send.  Returns the set
remaining registered after the pass and the clients the message was
delivered to, in iteration order. -/
def broadcastToClients : List WsClient → List WsClient × List WsClient
  | [] => ([], [])
  | c :: rest =>
    let tail := broadcastToClients rest
    if c.readyState == 1 then
      if c.sendFails then (tail.1, tail.2)
      else (c :: tail.1, c :: tail.2)
    else (tail.1, tail.2)

/-- `validateWebhookSecret`: reject when the configured secret is unset (a
falsy environment value), otherwise compare the supplied header for strict
equality (`null === secret` is false for an absent header). -/
def validateWebhookSecret (header expectedSecret : Option String) : Bool :=
  if ¬jsTruthy expectedSecret then false
  else decide (header = expectedSecret)

/-- Whether `req.json()` on the webhook body succeeds. -/
inductive BodyParse : Type
  | ok : BodyParse
  | malformed : BodyParse
deriving DecidableEq

/-- Outcome of one `POST /webhook/goldsky` request: HTTP status, the
registry after the request, and the clients the event was delivered to. -/
structure WebhookOutcome : Type where
  status : Nat
  clients : List WsClient
  delivered : List WsClient
deriving DecidableEq

/-- The `/webhook/goldsky` branch of the gateway's fetch handler: auth check
first (401 on failure), then body decode (a throwing `req.json()` reaches
the catch branch's 500 before any broadcast), then the broadcast and 200. -/
def webhookGoldsky (header expectedSecret : Option String) (parse : BodyParse)
    (clients : List WsClient) : WebhookOutcome :=
  if ¬validateWebhookSecret header expectedSecret then ⟨401, clients, []⟩
  else
    match parse with
    | .malformed => ⟨500, clients, []⟩
    | .ok =>
      let b := broadcastToClients clients
      ⟨200, b.1, b.2⟩

/-- A concrete aggregate row with the given `last_block_number`, used as
test data for the executor theorems. -/
def mkRow (bn : String) : TransferData :=
  ⟨"", "", 0, 0, 0, 0, 0, 0, bn, 0⟩

/-- The rows of the spec's first alignment example: block heights 12, 11, 9, 7. -/
def c1RowsAligned : List TransferData := [mkRow "12", mkRow "11", mkRow "9", mkRow "7"]

/-- The rows of the spec's second alignment example: block heights 8, 6, 5. -/
def c1RowsBehind : List TransferData := [mkRow "8", mkRow "6", mkRow "5"]

/-- The predicate the alignment scan tests on each row against a coerced
target block. -/
def rowMeetsBound (tbn : Option Int) (r : TransferData) : Bool :=
  jsGe (jsStrToNum r.last_block_number) tbn

theorem matchingPrefixLen_eq_takeWhile (tbn : Option Int) (rows : List TransferData) :
    matchingPrefixLen tbn rows = (rows.takeWhile (rowMeetsBound tbn)).length := by
  induction rows with
  | nil => rfl
  | cons r rs ih =>
    have hstep : matchingPrefixLen tbn (r :: rs) =
        if rowMeetsBound tbn r then matchingPrefixLen tbn rs + 1 else 0 := rfl
    rw [hstep, List.takeWhile_cons]
    by_cases h : rowMeetsBound tbn r <;> simp [h, ih]

theorem takeWhileLen_le {α : Type} (p : α → Bool) (l : List α) :
    (l.takeWhile p).length ≤ l.length := by
  induction l with
  | nil => simp
  | cons a t ih =>
    by_cases h : p a
    · simp [List.takeWhile_cons, h]; omega
    · simp [List.takeWhile_cons, h]

/-- C1: block-alignment trim.  For every row sequence and every truthy,
numerically-coercible `targetBlock`, the trim scans from the front stopping
at the first row whose block is below the target: when no leading row meets
the bound the attempt is flagged not aligned, and when some do, the kept
rows are exactly those from the last satisfying index (length of the
satisfying prefix minus one) onward.  On the concrete examples: heights
12, 11, 9, 7 with target 10 trim to 11, 9, 7 and succeed on the first
attempt, while heights 8, 6, 5 with target 10 are never aligned, so the
executor retries until the budget of 10 attempts is exhausted and returns
the empty result. -/
theorem c1_block_alignment_trim :
    (∀ (rows : List TransferData) (tbs : String) (t : Int),
      tbs ≠ "" → jsStrToNum tbs = some t →
      (((rows.takeWhile (rowMeetsBound (some t))).length = 0 → 0 < rows.length →
        (attemptTrim (some tbs) ⟨rows, rows.length⟩).2 = false) ∧
      (0 < (rows.takeWhile (rowMeetsBound (some t))).length →
        attemptTrim (some tbs) ⟨rows, rows.length⟩ =
          (⟨rows.drop ((rows.takeWhile (rowMeetsBound (some t))).length - 1),
            rows.length⟩, true)))) ∧
    retryLoop (some "10") (fun _ => .ok ⟨c1RowsAligned, 4⟩) =
      .ok (⟨[mkRow "11", mkRow "9", mkRow "7"], 3⟩, 1) ∧
    retryLoop (some "10") (fun _ => .ok ⟨c1RowsBehind, 3⟩) = .ok (⟨[], 0⟩, 10) := by
  refine ⟨?_, by rfl, by rfl⟩
  intro rows tbs t hne hnum
  have hm : matchingPrefixLen (jsStrToNum tbs) rows =
      (rows.takeWhile (rowMeetsBound (some t))).length := by
    rw [hnum, matchingPrefixLen_eq_takeWhile]
  constructor
  · intro h0 hlen
    simp [attemptTrim, jsTruthy, hne, hlen, hm, h0]
  · intro hpos
    have hlen : 0 < rows.length := lt_of_lt_of_le hpos (takeWhileLen_le _ _)
    simp [attemptTrim, jsTruthy, hne, hlen, hm, Nat.pos_iff_ne_zero.mp hpos, hpos]

/-- Witness for C1 at the concrete aligned example rows. -/
theorem c1_block_alignment_trim_witness :
    attemptTrim (some "10") ⟨c1RowsAligned, c1RowsAligned.length⟩ =
      (⟨[mkRow "11", mkRow "9", mkRow "7"], 4⟩, true) := by
  have h := (c1_block_alignment_trim.1 c1RowsAligned "10" 10 (by decide) (by rfl)).2
    (by decide)
  simpa using h

/-- A valid request used to exercise the success response shape:
`timeInterval=1h`, `token=WBTC`, no optional parameters. -/
def c3Request : Params := ⟨none, some "1h", some "WBTC", none, none, none⟩

/-- A store that answers every attempt with one aggregate row. -/
def c3Store : Store := fun _ => .ok ⟨[mkRow "12"], 1⟩

/-- C3: the claimed success response shape does not match the code.  A
request that passes validation and hits no store fault does get a 200 whose
body carries the echoed parameters and a `count` field holding the row
count, but the body has no `data` field at all: the `data: data.data` line
of the success return is commented out in the source, and the body instead
carries the debug leftovers `count2` and `data2`, the latter always the
empty array because the second client's query is also commented out. -/
theorem c3_success_response_shape :
    transfersHandler c3Request c3Store = ⟨200, successBody c3Request 1, 1⟩ ∧
    (transfersHandler c3Request c3Store).status = 200 ∧
    jGet (transfersHandler c3Request c3Store).body "count" = some (.jnum 1) ∧
    jGet (transfersHandler c3Request c3Store).body "parameters" =
      some (.jobj
        [("timeInterval", .jstr "1h"), ("tokenPair", .jstr "WBTC"),
         ("toBlock", .null), ("fromTimestamp", .null), ("toTimestamp", .null),
         ("n", .null)]) ∧
    jGet (transfersHandler c3Request c3Store).body "data" = none ∧
    jKeys (transfersHandler c3Request c3Store).body =
      ["parameters", "count", "count2", "data2"] ∧
    jGet (transfersHandler c3Request c3Store).body "data2" = some (.jarr []) := by
  exact ⟨rfl, rfl, rfl, rfl, rfl, rfl, rfl⟩

/-- C6: fail-closed webhook authentication.  With the expected secret unset
(or set to the falsy empty string) every request is rejected with 401, even
one whose header matches the would-be secret; with a non-empty secret
configured, a request escapes the 401 exactly when its header equals the
secret, and in general a non-401 outcome implies the header matched. -/
theorem c6_fail_closed_webhook_auth :
    (∀ (header : Option String) (parse : BodyParse) (clients : List WsClient),
      (webhookGoldsky header none parse clients).status = 401) ∧
    (∀ (header : Option String) (parse : BodyParse) (clients : List WsClient),
      (webhookGoldsky header (some "") parse clients).status = 401) ∧
    (∀ (header : Option String) (s : String) (parse : BodyParse)
        (clients : List WsClient), s ≠ "" →
      ((webhookGoldsky header (some s) parse clients).status ≠ 401 ↔
        header = some s)) ∧
    (∀ (header : Option String) (s : String) (parse : BodyParse)
        (clients : List WsClient),
      (webhookGoldsky header (some s) parse clients).status ≠ 401 →
      header = some s) := by
  have hbase : ∀ (header : Option String) (s : String) (parse : BodyParse)
      (clients : List WsClient), s ≠ "" →
      ((webhookGoldsky header (some s) parse clients).status ≠ 401 ↔
        header = some s) := by
    intro header s parse clients hs
    by_cases h : header = some s
    · subst h
      cases parse <;> simp [webhookGoldsky, validateWebhookSecret, jsTruthy, hs]
    · simp [webhookGoldsky, validateWebhookSecret, jsTruthy, hs, h]
  refine ⟨?_, ?_, hbase, ?_⟩
  · intro header parse clients
    simp [webhookGoldsky, validateWebhookSecret, jsTruthy]
  · intro header parse clients
    simp [webhookGoldsky, validateWebhookSecret, jsTruthy]
  · intro header s parse clients hne
    by_cases hs : s = ""
    · subst hs
      exact absurd (by simp [webhookGoldsky, validateWebhookSecret, jsTruthy]) hne
    · exact (hbase header s parse clients hs).mp hne

/-- Witness for C6: with secret "hub-secret" configured, a request supplying
that header is not rejected as unauthorized. -/
theorem c6_fail_closed_webhook_auth_witness :
    (webhookGoldsky (some "hub-secret") (some "hub-secret") .ok []).status ≠ 401 := by
  exact (c6_fail_closed_webhook_auth.2.2.1 (some "hub-secret") "hub-secret" .ok []
    (by decide)).mpr rfl

/-- Whether a broadcast pass delivers to a client and keeps it registered:
the client is open and its send does not throw. -/
def deliverOk (c : WsClient) : Bool := c.readyState == 1 && !c.sendFails

/-- The registry of the C7 example: three open clients, the middle one's
send throws. -/
def c7Clients : List WsClient := [⟨0, 1, false⟩, ⟨1, 1, true⟩, ⟨2, 1, false⟩]

/-- The two clients surviving the C7 example broadcast. -/
def c7Kept : List WsClient := [⟨0, 1, false⟩, ⟨2, 1, false⟩]

/-- C7: registry self-pruning.  A broadcast pass leaves registered exactly
the clients that were open and whose send succeeded, and delivers the event
to exactly those same clients in iteration order — so failed or non-open
subscribers are pruned during the same pass; on a duplicate-free registry
each surviving subscriber receives the event exactly once.  In the concrete
3-subscriber example with one failing send, exactly 2 subscribers remain and
the event went to those 2. -/
theorem c7_registry_self_pruning :
    (∀ clients : List WsClient,
      broadcastToClients clients =
        (clients.filter deliverOk, clients.filter deliverOk)) ∧
    (∀ (clients : List WsClient) (c : WsClient), clients.Nodup → c ∈ clients →
      deliverOk c = true → (broadcastToClients clients).2.count c = 1) ∧
    broadcastToClients c7Clients = (c7Kept, c7Kept) ∧
    c7Kept.length = 2 ∧ (⟨1, 1, true⟩ : WsClient) ∉ c7Kept := by
  have hchar : ∀ clients : List WsClient,
      broadcastToClients clients =
        (clients.filter deliverOk, clients.filter deliverOk) := by
    intro clients
    induction clients with
    | nil => rfl
    | cons c rest ih =>
      have hstep : broadcastToClients (c :: rest) =
          (let tail := broadcastToClients rest
           if c.readyState == 1 then
             if c.sendFails then (tail.1, tail.2) else (c :: tail.1, c :: tail.2)
           else (tail.1, tail.2)) := rfl
      rw [hstep, ih]
      by_cases h1 : c.readyState = 1 <;> by_cases h2 : c.sendFails <;>
        simp [List.filter_cons, deliverOk, h1, h2]
  refine ⟨hchar, ?_, by decide, by decide, by decide⟩
  intro clients c hnd hmem hok
  rw [hchar]
  exact List.count_eq_one_of_mem (List.Nodup.filter _ hnd)
    (List.mem_filter.mpr ⟨hmem, hok⟩)

/-- Witness for C7: exactly-once delivery on the concrete registry. -/
theorem c7_registry_self_pruning_witness :
    (broadcastToClients c7Clients).2.count ⟨0, 1, false⟩ = 1 := by
  exact c7_registry_self_pruning.2.1 c7Clients ⟨0, 1, false⟩ (by decide) (by decide)
    (by decide)

/-- An attempt outcome counts as present and aligned when the query did not
throw, reported a positive row count, and passed the block-alignment check. -/
def presentAligned (toBlock : Option String) : Except StoreThrow QueryData → Bool
  | .error _ => false
  | .ok r => decide (r.rows > 0) && (attemptTrim toBlock r).2

/-- An attempt outcome the loop retries after: a non-throwing query that was
not present and aligned. -/
def retriable (toBlock : Option String) : Except StoreThrow QueryData → Bool
  | .error _ => false
  | .ok r => !(decide (r.rows > 0) && (attemptTrim toBlock r).2)

theorem retryGo_succ (toBlock : Option String) (store : Store) (maxR fuel attempt : Nat)
    (dat : QueryData) :
    retryGo toBlock store maxR (fuel + 1) attempt dat =
      if attempt < maxR then
        match store attempt with
        | .error e => .error (e, attempt + 1)
        | .ok result =>
          if decide (result.rows > 0) && (attemptTrim toBlock result).2 then
            .ok (⟨(attemptTrim toBlock result).1.data,
                  (attemptTrim toBlock result).1.data.length⟩, attempt + 1)
          else if attempt + 1 ≥ maxR then .ok (⟨[], 0⟩, attempt + 1)
          else retryGo toBlock store maxR fuel (attempt + 1) dat
      else .ok (dat, attempt) := rfl

theorem retryGo_step_error {toBlock : Option String} {store : Store}
    {maxR attempt : Nat} {e : StoreThrow} (fuel : Nat) (dat : QueryData)
    (h1 : attempt < maxR) (h2 : store attempt = .error e) :
    retryGo toBlock store maxR (fuel + 1) attempt dat = .error (e, attempt + 1) := by
  rw [retryGo_succ, if_pos h1, h2]

theorem retryGo_step_hit {toBlock : Option String} {store : Store}
    {maxR attempt : Nat} {result : QueryData} (fuel : Nat) (dat : QueryData)
    (h1 : attempt < maxR) (h2 : store attempt = .ok result)
    (h3 : (decide (result.rows > 0) && (attemptTrim toBlock result).2) = true) :
    retryGo toBlock store maxR (fuel + 1) attempt dat =
      .ok (⟨(attemptTrim toBlock result).1.data,
            (attemptTrim toBlock result).1.data.length⟩, attempt + 1) := by
  rw [retryGo_succ, if_pos h1, h2]
  simp [h3]

theorem retryGo_step_retry {toBlock : Option String} {store : Store}
    {maxR attempt : Nat} {result : QueryData} (fuel : Nat) (dat : QueryData)
    (h1 : attempt < maxR) (h2 : store attempt = .ok result)
    (h3 : (decide (result.rows > 0) && (attemptTrim toBlock result).2) = false)
    (h4 : attempt + 1 < maxR) :
    retryGo toBlock store maxR (fuel + 1) attempt dat =
      retryGo toBlock store maxR fuel (attempt + 1) dat := by
  rw [retryGo_succ, if_pos h1, h2]
  simp [h3, Nat.not_le.mpr h4]

theorem retryGo_step_exhaust {toBlock : Option String} {store : Store}
    {maxR attempt : Nat} {result : QueryData} (fuel : Nat) (dat : QueryData)
    (h1 : attempt < maxR) (h2 : store attempt = .ok result)
    (h3 : (decide (result.rows > 0) && (attemptTrim toBlock result).2) = false)
    (h4 : attempt + 1 ≥ maxR) :
    retryGo toBlock store maxR (fuel + 1) attempt dat = .ok (⟨[], 0⟩, attempt + 1) := by
  rw [retryGo_succ, if_pos h1, h2]
  simp [h3, h4]

theorem retryGo_queries_le (toBlock : Option String) (store : Store) (maxR : Nat) :
    ∀ (fuel attempt : Nat) (dat : QueryData), attempt ≤ maxR →
      queriesOf (retryGo toBlock store maxR fuel attempt dat) ≤ maxR := by
  intro fuel
  induction fuel with
  | zero => intro attempt dat h; exact h
  | succ f ih =>
    intro attempt dat h
    by_cases hlt : attempt < maxR
    · cases hst : store attempt with
      | error e =>
        rw [retryGo_step_error f dat hlt hst]
        simpa [queriesOf] using hlt
      | ok result =>
        by_cases hs : (decide (result.rows > 0) && (attemptTrim toBlock result).2) = true
        · rw [retryGo_step_hit f dat hlt hst hs]
          simpa [queriesOf] using hlt
        · replace hs := Bool.eq_false_iff.mpr hs
          by_cases hmax : attempt + 1 ≥ maxR
          · rw [retryGo_step_exhaust f dat hlt hst hs hmax]
            simpa [queriesOf] using hlt
          · rw [retryGo_step_retry f dat hlt hst hs (by omega)]
            exact ih (attempt + 1) dat (by omega)
    · rw [retryGo_succ, if_neg hlt]
      exact h

theorem retryGo_hit_short_circuit (toBlock : Option String) (store : Store) (maxR : Nat) :
    ∀ (k fuel attempt : Nat) (dat : QueryData),
      (∀ j, j < k → retriable toBlock (store (attempt + j)) = true) →
      presentAligned toBlock (store (attempt + k)) = true →
      attempt + k < maxR → k + 1 ≤ fuel →
      queriesOf (retryGo toBlock store maxR fuel attempt dat) = attempt + k + 1 ∧
      (∀ store2 : Store, (∀ j, j ≤ attempt + k → store2 j = store j) →
        retryGo toBlock store2 maxR fuel attempt dat =
          retryGo toBlock store maxR fuel attempt dat) := by
  intro k
  induction k with
  | zero =>
    intro fuel attempt dat hpre hhit hlt hfuel
    obtain ⟨f, rfl⟩ : ∃ f, fuel = f + 1 := ⟨fuel - 1, by omega⟩
    rw [Nat.add_zero] at hhit hlt
    cases hst : store attempt with
    | error e => rw [hst] at hhit; simp [presentAligned] at hhit
    | ok result =>
      have hs : (decide (result.rows > 0) && (attemptTrim toBlock result).2) = true := by
        rw [hst] at hhit; simpa [presentAligned] using hhit
      refine ⟨?_, ?_⟩
      · rw [retryGo_step_hit f dat hlt hst hs]
        simp [queriesOf]
      · intro store2 hag
        have hst2 : store2 attempt = .ok result := by
          rw [hag attempt (by omega), hst]
        rw [retryGo_step_hit f dat hlt hst hs, retryGo_step_hit f dat hlt hst2 hs]
  | succ k ih =>
    intro fuel attempt dat hpre hhit hlt hfuel
    obtain ⟨f, rfl⟩ : ∃ f, fuel = f + 1 := ⟨fuel - 1, by omega⟩
    have hlt1 : attempt < maxR := by omega
    have hret : retriable toBlock (store attempt) = true := by
      have h0 := hpre 0 (by omega)
      rwa [Nat.add_zero] at h0
    cases hst : store attempt with
    | error e => rw [hst] at hret; simp [retriable] at hret
    | ok result =>
      have hs : (decide (result.rows > 0) && (attemptTrim toBlock result).2) = false := by
        rw [hst] at hret
        simp only [retriable] at hret
        by_cases hc : (decide (result.rows > 0) && (attemptTrim toBlock result).2) = true
        · rw [hc] at hret
          exact absurd hret (by decide)
        · exact Bool.eq_false_iff.mpr hc
      have hpre2 : ∀ j, j < k → retriable toBlock (store (attempt + 1 + j)) = true := by
        intro j hj
        have h2 := hpre (j + 1) (by omega)
        rwa [show attempt + (j + 1) = attempt + 1 + j by omega] at h2
      have hhit2 : presentAligned toBlock (store (attempt + 1 + k)) = true := by
        rwa [show attempt + (k + 1) = attempt + 1 + k by omega] at hhit
      have hrec := ih f (attempt + 1) dat hpre2 hhit2 (by omega) (by omega)
      have hstep : retryGo toBlock store maxR (f + 1) attempt dat =
          retryGo toBlock store maxR f (attempt + 1) dat :=
        retryGo_step_retry f dat hlt1 hst hs (by omega)
      refine ⟨?_, ?_⟩
      · rw [hstep, hrec.1]
        omega
      · intro store2 hag
        have hst2 : store2 attempt = .ok result := by
          rw [hag attempt (by omega), hst]
        have hstep2 : retryGo toBlock store2 maxR (f + 1) attempt dat =
            retryGo toBlock store2 maxR f (attempt + 1) dat :=
          retryGo_step_retry f dat hlt1 hst2 hs (by omega)
        rw [hstep, hstep2]
        exact hrec.2 store2 (fun j hj => hag j (by omega))

theorem retryGo_exhaust (toBlock : Option String) (store : Store) (maxR : Nat) :
    ∀ (fuel attempt : Nat) (dat : QueryData),
      attempt + fuel = maxR → 0 < fuel →
      (∀ j, j < fuel → retriable toBlock (store (attempt + j)) = true) →
      retryGo toBlock store maxR fuel attempt dat = .ok (⟨[], 0⟩, maxR) := by
  intro fuel
  induction fuel with
  | zero => intro attempt dat hsum hpos hall; omega
  | succ f ih =>
    intro attempt dat hsum hpos hall
    have hlt : attempt < maxR := by omega
    have hret : retriable toBlock (store attempt) = true := by
      have h0 := hall 0 (by omega)
      rwa [Nat.add_zero] at h0
    cases hst : store attempt with
    | error e => rw [hst] at hret; simp [retriable] at hret
    | ok result =>
      have hs : (decide (result.rows > 0) && (attemptTrim toBlock result).2) = false := by
        rw [hst] at hret
        simp only [retriable] at hret
        by_cases hc : (decide (result.rows > 0) && (attemptTrim toBlock result).2) = true
        · rw [hc] at hret
          exact absurd hret (by decide)
        · exact Bool.eq_false_iff.mpr hc
      by_cases hf : f = 0
      · subst hf
        rw [retryGo_step_exhaust 0 dat hlt hst hs (by omega)]
        rw [show attempt + 1 = maxR by omega]
      · rw [retryGo_step_retry f dat hlt hst hs (by omega)]
        refine ih (attempt + 1) dat (by omega) (by omega) ?_
        intro j hj
        have h2 := hall (j + 1) (by omega)
        rwa [show attempt + (j + 1) = attempt + 1 + j by omega] at h2

theorem transfersHandler_valid (p : Params) (store : Store)
    (hti : p.timeInterval = some "1h" ∨ p.timeInterval = some "1m")
    (htk : p.token = some "WBTC") :
    transfersHandler p store =
      match retryLoop p.toBlock store with
      | .error (e, q) => ⟨500, queryFailedBody e, q⟩
      | .ok (d, q) => ⟨200, successBody p (postProcess p.n d).rows, q⟩ := by
  rcases hti with h | h <;>
    simp [transfersHandler, jsTruthy, h, htk, resolveTable]

theorem jsSliceTo_nil {α : Type} (e : Option Int) : jsSliceTo ([] : List α) e = [] := by
  cases e with
  | none => rfl
  | some k => by_cases h : 0 ≤ k <;> simp [jsSliceTo, h]

theorem postProcess_empty (n : Option String) : postProcess n ⟨[], 0⟩ = ⟨[], 0⟩ := by
  by_cases h : jsTruthy n = true <;> simp [postProcess, h, jsSliceTo_nil]

/-- C2: retry termination and short-circuit.  Every `/transfers` request
issues at most 10 store queries (whatever the parameters and store
behavior), and so does the executor in isolation; moreover, if the attempts
before 0-based index `k` are all retriable and attempt `k` (attempt `k+1` in
1-based counting) is present and aligned, the loop stops after exactly `k+1`
queries, and its entire outcome is unchanged under any modification of the
store at indices beyond `k` — attempts `k+2` through 10 never occur. -/
theorem c2_retry_termination :
    (∀ (p : Params) (store : Store), (transfersHandler p store).queriesMade ≤ 10) ∧
    (∀ (toBlock : Option String) (store : Store),
      queriesOf (retryLoop toBlock store) ≤ 10) ∧
    (∀ (toBlock : Option String) (store : Store) (k : Nat), k < 10 →
      (∀ j, j < k → retriable toBlock (store j) = true) →
      presentAligned toBlock (store k) = true →
      queriesOf (retryLoop toBlock store) = k + 1 ∧
      (∀ store2 : Store, (∀ j, j ≤ k → store2 j = store j) →
        retryLoop toBlock store2 = retryLoop toBlock store)) := by
  have hloop : ∀ (toBlock : Option String) (store : Store),
      queriesOf (retryLoop toBlock store) ≤ 10 := by
    intro toBlock store
    exact retryGo_queries_le toBlock store 10 10 0 ⟨[], 0⟩ (by omega)
  refine ⟨?_, hloop, ?_⟩
  · intro p store
    have h10 := hloop p.toBlock store
    unfold transfersHandler
    split
    · simp
    · split
      · simp
      · split
        · simp
        · cases hres : retryLoop p.toBlock store with
          | error eq =>
            obtain ⟨e, q⟩ := eq
            rw [hres] at h10
            simpa [queriesOf] using h10
          | ok dq =>
            obtain ⟨d, q⟩ := dq
            rw [hres] at h10
            simpa [queriesOf] using h10
  · intro toBlock store k hk hpre hhit
    have h := retryGo_hit_short_circuit toBlock store 10 k 10 0 ⟨[], 0⟩
      (by simpa using hpre) (by simpa using hhit) (by omega) (by omega)
    exact ⟨by simpa using h.1, fun store2 hag => h.2 store2 (by simpa using hag)⟩

/-- Witness for C2: with a store that is stale on attempts 1 and 2 and
present-and-aligned on attempt 3, the loop issues exactly 3 queries. -/
def c2Store : Store := fun j => if j = 2 then .ok ⟨[mkRow "12"], 1⟩ else .ok ⟨[], 0⟩

theorem c2_retry_termination_witness :
    queriesOf (retryLoop none c2Store) = 3 := by
  have h := c2_retry_termination.2.2 none c2Store 2 (by omega)
    (fun j hj => by
      have hj2 : j = 0 ∨ j = 1 := by omega
      rcases hj2 with h0 | h0 <;> rw [h0] <;> rfl)
    (by rfl)
  exact h.1

/-- C4: exhaustion is not an error.  For every valid request whose store
yields a retriable (non-throwing, never present-and-aligned) outcome on all
10 attempts, the handler issues exactly 10 queries and answers with a plain
200 whose count is 0 — the loop's final data is the empty result and the
optional `n` truncation leaves it empty. -/
theorem c4_exhaustion_returns_200 :
    ∀ (p : Params) (store : Store),
      (p.timeInterval = some "1h" ∨ p.timeInterval = some "1m") →
      p.token = some "WBTC" →
      (∀ j, j < 10 → retriable p.toBlock (store j) = true) →
      retryLoop p.toBlock store = .ok (⟨[], 0⟩, 10) ∧
      transfersHandler p store = ⟨200, successBody p 0, 10⟩ ∧
      (transfersHandler p store).status = 200 ∧
      jGet (transfersHandler p store).body "count" = some (.jnum 0) := by
  intro p store hti htk hall
  have hloop : retryLoop p.toBlock store = .ok (⟨[], 0⟩, 10) := by
    exact retryGo_exhaust p.toBlock store 10 10 0 ⟨[], 0⟩ (by omega) (by omega)
      (by simpa using hall)
  have hhand : transfersHandler p store = ⟨200, successBody p 0, 10⟩ := by
    rw [transfersHandler_valid p store hti htk, hloop]
    simp [postProcess_empty]
  refine ⟨hloop, hhand, by rw [hhand], by rw [hhand]; rfl⟩

/-- Witness for C4: a store that never has data exhausts the 10-attempt
budget and the request still gets a 200 with count 0. -/
def c4Store : Store := fun _ => .ok ⟨[], 0⟩

theorem c4_exhaustion_returns_200_witness :
    transfersHandler ⟨none, some "1h", some "WBTC", none, none, none⟩ c4Store =
      ⟨200, successBody ⟨none, some "1h", some "WBTC", none, none, none⟩ 0, 10⟩ := by
  exact (c4_exhaustion_returns_200 ⟨none, some "1h", some "WBTC", none, none, none⟩
    c4Store (Or.inl rfl) rfl (fun j hj => rfl)).2.1

theorem retryGo_error_propagates (toBlock : Option String) (store : Store) (maxR : Nat) :
    ∀ (k fuel attempt : Nat) (dat : QueryData) (e : StoreThrow),
      (∀ j, j < k → retriable toBlock (store (attempt + j)) = true) →
      store (attempt + k) = .error e →
      attempt + k < maxR → k + 1 ≤ fuel →
      retryGo toBlock store maxR fuel attempt dat = .error (e, attempt + k + 1) ∧
      (∀ store2 : Store, (∀ j, j ≤ attempt + k → store2 j = store j) →
        retryGo toBlock store2 maxR fuel attempt dat = .error (e, attempt + k + 1)) := by
  intro k
  induction k with
  | zero =>
    intro fuel attempt dat e hpre herr hlt hfuel
    obtain ⟨f, rfl⟩ : ∃ f, fuel = f + 1 := ⟨fuel - 1, by omega⟩
    rw [Nat.add_zero] at herr hlt
    refine ⟨retryGo_step_error f dat hlt herr, ?_⟩
    intro store2 hag
    have herr2 : store2 attempt = .error e := by rw [hag attempt (by omega), herr]
    exact retryGo_step_error f dat hlt herr2
  | succ k ih =>
    intro fuel attempt dat e hpre herr hlt hfuel
    obtain ⟨f, rfl⟩ : ∃ f, fuel = f + 1 := ⟨fuel - 1, by omega⟩
    have hlt1 : attempt < maxR := by omega
    have hret : retriable toBlock (store attempt) = true := by
      have h0 := hpre 0 (by omega)
      rwa [Nat.add_zero] at h0
    cases hst : store attempt with
    | error e2 => rw [hst] at hret; simp [retriable] at hret
    | ok result =>
      have hs : (decide (result.rows > 0) && (attemptTrim toBlock result).2) = false := by
        rw [hst] at hret
        simp only [retriable] at hret
        by_cases hc : (decide (result.rows > 0) && (attemptTrim toBlock result).2) = true
        · rw [hc] at hret
          exact absurd hret (by decide)
        · exact Bool.eq_false_iff.mpr hc
      have hpre2 : ∀ j, j < k → retriable toBlock (store (attempt + 1 + j)) = true := by
        intro j hj
        have h2 := hpre (j + 1) (by omega)
        rwa [show attempt + (j + 1) = attempt + 1 + j by omega] at h2
      have herr2 : store (attempt + 1 + k) = .error e := by
        rwa [show attempt + (k + 1) = attempt + 1 + k by omega] at herr
      have hrec := ih f (attempt + 1) dat e hpre2 herr2 (by omega) (by omega)
      have hstep : retryGo toBlock store maxR (f + 1) attempt dat =
          retryGo toBlock store maxR f (attempt + 1) dat :=
        retryGo_step_retry f dat hlt1 hst hs (by omega)
      refine ⟨?_, ?_⟩
      · rw [hstep, hrec.1, show attempt + 1 + k = attempt + (k + 1) by omega]
      · intro store2 hag
        have hst2 : store2 attempt = .ok result := by rw [hag attempt (by omega), hst]
        have hstep2 : retryGo toBlock store2 maxR (f + 1) attempt dat =
            retryGo toBlock store2 maxR f (attempt + 1) dat :=
          retryGo_step_retry f dat hlt1 hst2 hs (by omega)
        rw [hstep2]
        have h2 := hrec.2 store2 (fun j hj => hag j (by omega))
        rw [h2, show attempt + 1 + k = attempt + (k + 1) by omega]

/-- C8: store faults bypass the retry budget.  If the attempts before
0-based index `k` were retriable and attempt `k` throws, the fault
propagates at once: the handler answers 500 with the `Query failed` error
and the thrown message, exactly `k+1` store queries were issued, and the
response is unchanged under any modification of the store beyond index `k`
— the fault is never retried. -/
theorem c8_store_faults_immediate :
    ∀ (p : Params) (store : Store) (k : Nat) (e : StoreThrow),
      (p.timeInterval = some "1h" ∨ p.timeInterval = some "1m") →
      p.token = some "WBTC" →
      k < 10 →
      (∀ j, j < k → retriable p.toBlock (store j) = true) →
      store k = .error e →
      transfersHandler p store = ⟨500, queryFailedBody e, k + 1⟩ ∧
      jGet (transfersHandler p store).body "error" = some (.jstr "Query failed") ∧
      jGet (transfersHandler p store).body "message" =
        some (.jstr (throwMessage e)) ∧
      (∀ store2 : Store, (∀ j, j ≤ k → store2 j = store j) →
        transfersHandler p store2 = transfersHandler p store) := by
  intro p store k e hti htk hk hpre herr
  have h := retryGo_error_propagates p.toBlock store 10 k 10 0 ⟨[], 0⟩ e
    (by simpa using hpre) (by simpa using herr) (by omega) (by omega)
  have hloop : retryLoop p.toBlock store = .error (e, k + 1) := by
    have h1 := h.1
    simpa [retryLoop] using h1
  have hhand : transfersHandler p store = ⟨500, queryFailedBody e, k + 1⟩ := by
    rw [transfersHandler_valid p store hti htk, hloop]
  refine ⟨hhand, by rw [hhand]; rfl, by rw [hhand]; rfl, ?_⟩
  intro store2 hag
  have hloop2 : retryLoop p.toBlock store2 = .error (e, k + 1) := by
    have h2 := h.2 store2 (by simpa using hag)
    simpa [retryLoop] using h2
  rw [transfersHandler_valid p store2 hti htk, hloop2, hhand]

/-- Witness for C8: the store throws on the second attempt after a stale
first attempt; the handler answers 500 after exactly 2 queries. -/
def c8Store : Store := fun j =>
  if j = 1 then .error (.error "socket hang up") else .ok ⟨[], 0⟩

theorem c8_store_faults_immediate_witness :
    transfersHandler ⟨none, some "1h", some "WBTC", none, none, none⟩ c8Store =
      ⟨500, queryFailedBody (.error "socket hang up"), 2⟩ := by
  exact (c8_store_faults_immediate ⟨none, some "1h", some "WBTC", none, none, none⟩
    c8Store 1 (.error "socket hang up") (Or.inl rfl) rfl (by omega)
    (fun j hj => by
      have hj0 : j = 0 := by omega
      rw [hj0]
      rfl)
    rfl).1

/-- The raw 5-row aligned result of the C5 example, block heights
12, 11, 9, 7, 5. -/
def c5Raw : List TransferData :=
  [mkRow "12", mkRow "11", mkRow "9", mkRow "7", mkRow "5"]

/-- The post-trim sequence of the C5 example with target block 10: the rows
from the last satisfying index onward. -/
def c5PostTrim : List TransferData :=
  [mkRow "11", mkRow "9", mkRow "7", mkRow "5"]

/-- The C5 request: `n=2`, `toBlock=10`, valid interval and token. -/
def c5Request : Params := ⟨some "2", some "1h", some "WBTC", some "10", none, none⟩

/-- The C5 store: every attempt answers the raw 5-row result. -/
def c5Store : Store := fun _ => .ok ⟨c5Raw, 5⟩

/-- C5: truncation order.  For every valid request, the handler applies the
`n` truncation to the data the retry loop returned — which is already
post-trim — and reports the truncated length as `count`; for a truthy
nonnegative integer `n` the truncation is exactly `take n`.  On the concrete
example, a 5-row aligned result trimmed for target block 10 and truncated
with `n=2` yields the first 2 rows of the post-trim sequence (heights 11
and 9), which differ from the first 2 rows of the raw sequence. -/
theorem c5_truncation_order :
    (∀ (p : Params) (store : Store) (d : QueryData) (q : Nat),
      (p.timeInterval = some "1h" ∨ p.timeInterval = some "1m") →
      p.token = some "WBTC" →
      retryLoop p.toBlock store = .ok (d, q) →
      transfersHandler p store = ⟨200, successBody p (postProcess p.n d).rows, q⟩) ∧
    (∀ (ns : String) (k : Int) (d : QueryData),
      ns ≠ "" → jsStrToNum ns = some k → 0 ≤ k →
      postProcess (some ns) d = ⟨d.data.take k.toNat, (d.data.take k.toNat).length⟩) ∧
    retryLoop (some "10") c5Store = .ok (⟨c5PostTrim, 4⟩, 1) ∧
    postProcess (some "2") ⟨c5PostTrim, 4⟩ = ⟨[mkRow "11", mkRow "9"], 2⟩ ∧
    transfersHandler c5Request c5Store = ⟨200, successBody c5Request 2, 1⟩ ∧
    [mkRow "11", mkRow "9"] ≠ c5Raw.take 2 := by
  refine ⟨?_, ?_, by rfl, by rfl, by rfl, by decide⟩
  · intro p store d q hti htk hloop
    rw [transfersHandler_valid p store hti htk, hloop]
  · intro ns k d hne hnum hk
    simp [postProcess, jsTruthy, hne, hnum, jsSliceTo, hk]

/-- Witness for C5: the general truncation shape at the concrete post-trim
data with `n=2`. -/
theorem c5_truncation_order_witness :
    postProcess (some "2") ⟨c5PostTrim, 4⟩ =
      ⟨c5PostTrim.take 2, (c5PostTrim.take 2).length⟩ := by
  exact c5_truncation_order.2.1 "2" 2 ⟨c5PostTrim, 4⟩ (by decide) (by rfl) (by omega)

/-- The C9 counterexample request: valid interval and token but an `n` that
is not numeric — an invalid parameter under the documented interface. -/
def c9Request : Params := ⟨some "abc", some "1h", some "WBTC", none, none, none⟩

/-- The C9 counterexample store: the first attempt already has a row. -/
def c9Store : Store := fun _ => .ok ⟨[mkRow "12"], 1⟩

/-- Counterexample to C9 as stated: a request carrying an invalid parameter
(`n=abc` is not an integer) is not rejected with 400 before I/O — the
handler issues a store query and answers 200. -/
theorem c9_validation_counterexample :
    (transfersHandler c9Request c9Store).status = 200 ∧
    (transfersHandler c9Request c9Store).queriesMade = 1 := by
  exact ⟨rfl, rfl⟩

/-- C9 (amended): validation precedes I/O for the checks the handler
performs.  A request missing a truthy `timeInterval` or `token`, carrying a
token other than WBTC, or carrying an interval that resolves to no table is
rejected with 400 and zero store queries, identically for every store — so
such rejections are never retried.  (Invalid optional parameters such as a
non-numeric `n` are not rejected; see the counterexample.) -/
theorem c9_validation_before_io :
    (∀ (p : Params) (store : Store),
      ¬(jsTruthy p.timeInterval = true ∧ jsTruthy p.token = true) →
      transfersHandler p store = ⟨400, missingParamsBody p, 0⟩) ∧
    (∀ (p : Params) (store : Store),
      jsTruthy p.timeInterval = true → jsTruthy p.token = true →
      p.token ≠ some "WBTC" →
      transfersHandler p store = ⟨400, invalidTokenBody, 0⟩) ∧
    (∀ (p : Params) (store : Store),
      jsTruthy p.timeInterval = true → p.token = some "WBTC" →
      resolveTable (p.timeInterval.getD "") = none →
      transfersHandler p store = ⟨400, invalidIntervalBody, 0⟩) := by
  refine ⟨?_, ?_, ?_⟩
  · intro p store h
    have hcond : (jsTruthy p.timeInterval && jsTruthy p.token) = false := by
      by_cases h1 : jsTruthy p.timeInterval = true
      · by_cases h2 : jsTruthy p.token = true
        · exact absurd ⟨h1, h2⟩ h
        · simp [Bool.eq_false_iff.mpr h2]
      · simp [Bool.eq_false_iff.mpr h1]
    simp [transfersHandler, hcond]
  · intro p store h1 h2 h3
    simp [transfersHandler, h1, h2, h3]
  · intro p store h1 h2 h3
    simp [transfersHandler, h1, h2, h3, show jsTruthy (some "WBTC") = true from rfl]

/-- Witness for C9 (amended): a request with no parameters at all is
rejected with 400 and zero store queries. -/
theorem c9_validation_before_io_witness :
    transfersHandler ⟨none, none, none, none, none, none⟩ c9Store =
      ⟨400, missingParamsBody ⟨none, none, none, none, none, none⟩, 0⟩ := by
  exact c9_validation_before_io.1 ⟨none, none, none, none, none, none⟩ c9Store
    (by simp [jsTruthy])

/-- The C10 request: `n=abc`, valid interval and token, no target block. -/
def c10Request : Params := ⟨some "abc", some "1h", some "WBTC", none, none, none⟩

/-- The three rows the C10 store returns on the first attempt. -/
def c10Rows : List TransferData := [mkRow "12", mkRow "11", mkRow "9"]

/-- The C10 store: every attempt answers the 3-row result. -/
def c10Store : Store := fun _ => .ok ⟨c10Rows, 3⟩

/-- C10: a non-numeric `n` empties the result.  In general, a truthy `n`
that does not coerce to a number makes the post-processing slice use `NaN`
as its bound, which coerces to 0, so the final data is empty with count 0;
on the concrete request with `n=abc`, the retry loop obtains a non-empty
present-and-aligned result on the first attempt, yet the response is a 200
reporting count 0. -/
theorem c10_nan_truncation_empties :
    (∀ (ns : String) (d : QueryData),
      ns ≠ "" → jsStrToNum ns = none → postProcess (some ns) d = ⟨[], 0⟩) ∧
    retryLoop none c10Store = .ok (⟨c10Rows, 3⟩, 1) ∧
    c10Rows ≠ [] ∧
    transfersHandler c10Request c10Store = ⟨200, successBody c10Request 0, 1⟩ ∧
    jGet (transfersHandler c10Request c10Store).body "count" = some (.jnum 0) := by
  refine ⟨?_, by rfl, by decide, by rfl, by rfl⟩
  intro ns d hne hnum
  simp [postProcess, jsTruthy, hne, hnum, jsSliceTo]

/-- Witness for C10: the slice with the non-numeric bound `abc` empties a
non-empty data set. -/
theorem c10_nan_truncation_empties_witness :
    postProcess (some "abc") ⟨c10Rows, 3⟩ = ⟨[], 0⟩ := by
  exact c10_nan_truncation_empties.1 "abc" ⟨c10Rows, 3⟩ (by decide) (by rfl)
